import Mathlib

/-!
Shallow embedding of the raster compositing / editing engine in
`src/image-editor/renderer.ts` (class `Renderer`), together with proofs
about its snapshot history, selection-constrained erase, smudge,
view-fitting and mask/erasure conversion code.

Modelling conventions:
* An HTML `ImageData` (8-bit RGBA raster) is a width, a height and a
  coordinate-indexed pixel function; `pix x y` models the four bytes
  `data[(y*width+x)*4 .. (y*width+x)*4+3]`.  Coordinates outside
  `[0,width) x [0,height)` are junk for a raster and are never observed
  by the `sameRaster` ("byte-identical") relation.
* JavaScript `number` arithmetic on coordinates/opacities is embedded as
  exact rational arithmetic (`ℚ`); the two square roots in the sources
  appear only under monotone comparisons or as `Math.sqrt` of a real
  length, and are embedded by the equivalent squared comparison
  (distances) resp. by `Real.sqrt` (line length in `smudgeLine`).
* Writing a `number` into a `Uint8ClampedArray` clamps to `[0,255]` and
  rounds half to even (`clamp8` below).
* Canvas 2D integer coercions (`getImageData`/`putImageData`/canvas
  sizes take integral arguments) truncate toward zero (`jsTrunc`).
-/

/-- One RGBA pixel; channels are byte values (0..255 in well-formed data). -/
structure Pixel where
  r : ℕ
  g : ℕ
  b : ℕ
  a : ℕ
deriving DecidableEq, Repr

/-- Transparent black, the value of fresh canvas pixels and of
out-of-bounds `getImageData` reads. -/
def transparent : Pixel := ⟨0, 0, 0, 0⟩

/-- An 8-bit RGBA raster (HTML `ImageData` / canvas pixel content). -/
structure ImageData where
  width : ℕ
  height : ℕ
  pix : ℕ → ℕ → Pixel

/-- A blank (fully transparent) raster, as produced by sizing a canvas. -/
def blankImage (w h : ℕ) : ImageData := ⟨w, h, fun _ _ => transparent⟩

/-- "Byte-identical" comparison of two rasters: same dimensions and same
bytes at every in-range coordinate. -/
def ImageData.sameRaster (a b : ImageData) : Prop :=
  a.width = b.width ∧ a.height = b.height ∧
    ∀ x y, x < a.width → y < a.height → a.pix x y = b.pix x y

/-- Pixel lookup at signed coordinates: canvas reads outside the surface
yield transparent black. -/
def getPixel (img : ImageData) (x y : ℤ) : Pixel :=
  if 0 ≤ x ∧ x < img.width ∧ 0 ≤ y ∧ y < img.height then
    img.pix x.toNat y.toNat
  else transparent

/-- The raster produced by a `ctx.getImageData(ox, oy, w, h)` read with
nonzero size: a w×h window copy, transparent black where the window
leaves the surface.  The synchronous `IndexSizeError` the canvas API
raises for a zero-size read is modelled by `getImageDataChecked`; this
definition alone is used only where the window size is nonzero (the
full-extent snapshot reads, whose layer canvases have positive
dimensions, and `smudgeLine`, whose claim assumes a positive brush
size). -/
def getImageData (img : ImageData) (ox oy : ℤ) (w h : ℕ) : ImageData :=
  ⟨w, h, fun x y =>
    if x < w ∧ y < h then getPixel img (ox + x) (oy + y) else transparent⟩

/-- `ctx.getImageData(ox, oy, w, h)` including its error behaviour: a
zero-size read (`sw = 0` or `sh = 0`) raises `IndexSizeError`
synchronously instead of returning a raster. -/
def getImageDataChecked (img : ImageData) (ox oy : ℤ) (w h : ℕ) :
    Except String ImageData :=
  if w = 0 ∨ h = 0 then .error "IndexSizeError"
  else .ok (getImageData img ox oy w h)

/-- `ctx.putImageData(window, dx, dy)`: replaces (no blending) the pixels
of `img` covered by the window with the window's pixels. -/
def putImageData (img window : ImageData) (dx dy : ℤ) : ImageData :=
  ⟨img.width, img.height, fun x y =>
    if dx ≤ (x : ℤ) ∧ (x : ℤ) < dx + window.width ∧
        dy ≤ (y : ℤ) ∧ (y : ℤ) < dy + window.height then
      getPixel window ((x : ℤ) - dx) ((y : ℤ) - dy)
    else img.pix x y⟩

/-- JavaScript `ToInt32`-style coercion of a finite number: truncation
toward zero (used by canvas APIs for integral arguments). -/
def jsTrunc (q : ℚ) : ℤ := if 0 ≤ q then ⌊q⌋ else ⌈q⌉

/-- Round half to even on rationals (the rounding mode used when a
JavaScript number is stored into a `Uint8ClampedArray`). -/
def roundHalfEven (q : ℚ) : ℤ :=
  let f := ⌊q⌋
  let rem := q - f
  if rem < 1/2 then f
  else if 1/2 < rem then f + 1
  else if f % 2 = 0 then f else f + 1

/-- Storing a JavaScript number into a `Uint8ClampedArray` slot: clamp to
`[0, 255]`, then round half to even. -/
def clamp8 (q : ℚ) : ℕ :=
  if q ≤ 0 then 0 else if 255 ≤ q then 255 else (roundHalfEven q).toNat

/-- `Rect` from `src/image-editor/models.ts`: a rectangle in base-layer
coordinates (the selection overlay). -/
structure Rect where
  x : ℚ
  y : ℚ
  width : ℚ
  height : ℚ
deriving DecidableEq, Repr

/-- `const maxSnapshots = 50`. -/
def maxSnapshots : ℕ := 50

/-- State of the `Renderer` class (`src/image-editor/renderer.ts`).
The five canvas layers are rasters; the background layer, the cursor,
the opacity scalars and the reference-image list only affect `render()`
output (pure drawing to the visible canvas) and are omitted, as are the
snapshot listeners (synchronous callbacks with no effect on this state). -/
structure Renderer where
  undoStack : List ImageData
  redoStack : List ImageData
  currentSnapshot : Option ImageData
  /-- `baseImageLayer` canvas content. -/
  base : ImageData
  /-- `refImageLayer` canvas content. -/
  refLayer : ImageData
  /-- `editLayer` canvas content. -/
  editLayer : ImageData
  /-- `overlayLayer` canvas content. -/
  overlayLayer : ImageData
  selectionOverlay : Option Rect
  hasSelection : Bool
  zoom : ℚ
  offsetX : ℚ
  offsetY : ℚ
  /-- `this.width` (image width, set by `setBaseImage`). -/
  width : ℕ
  /-- `this.height` (image height, set by `setBaseImage`). -/
  height : ℕ
  /-- `this.canvas.width` (the visible viewport canvas). -/
  canvasWidth : ℕ
  /-- `this.canvas.height` (the visible viewport canvas). -/
  canvasHeight : ℕ

/-- The `Renderer` constructor: empty history, unit view transform,
zero image size; layer canvases start blank at the default 300×150 size
of a fresh canvas element (fully transparent content). -/
def initRenderer (canvasWidth canvasHeight : ℕ) : Renderer where
  undoStack := []
  redoStack := []
  currentSnapshot := none
  base := blankImage 300 150
  refLayer := blankImage 300 150
  editLayer := blankImage 300 150
  overlayLayer := blankImage 300 150
  selectionOverlay := none
  hasSelection := false
  zoom := 1
  offsetX := 0
  offsetY := 0
  width := 0
  height := 0
  canvasWidth := canvasWidth
  canvasHeight := canvasHeight

/-- The raster captured by `ctx.getImageData(0, 0, layer.width,
layer.height)` on a layer canvas: a full-extent copy. -/
def snapCapture (img : ImageData) : ImageData :=
  getImageData img 0 0 img.width img.height

/-- `Renderer.snapshot()`: capture the base layer; if a current snapshot
exists, push it on the undo stack (evicting the oldest entry once the
stack length exceeds `maxSnapshots`), clear the redo stack and make the
capture current; otherwise the capture just becomes current. -/
def Renderer.snapshot (s : Renderer) : Renderer :=
  let snap := snapCapture s.base
  match s.currentSnapshot with
  | some cur =>
      let undoStack := s.undoStack ++ [cur]
      let redoStack := if 0 < s.redoStack.length then [] else s.redoStack
      let undoStack :=
        if maxSnapshots < undoStack.length then undoStack.drop 1 else undoStack
      { s with undoStack := undoStack, redoStack := redoStack,
               currentSnapshot := some snap }
  | none => { s with currentSnapshot := some snap }

/-- `ctx.clearRect(0, 0, w, h)` over the full extent of a layer. -/
def clearLayer (img : ImageData) : ImageData := blankImage img.width img.height

/-- `Renderer.undo(allowRedo)`: with a non-empty undo stack and a current
snapshot, pop the most recent undo entry (`Array.prototype.pop` takes the
last element), optionally push the current snapshot on the redo stack,
make the popped entry current and write it into the (cleared) base layer;
otherwise do nothing. -/
def Renderer.undo (s : Renderer) (allowRedo : Bool) : Renderer :=
  match s.currentSnapshot, s.undoStack.getLast? with
  | some cur, some imageData =>
      { s with
        undoStack := s.undoStack.dropLast
        redoStack := if allowRedo then s.redoStack ++ [cur] else s.redoStack
        currentSnapshot := some imageData
        base := putImageData (clearLayer s.base) imageData 0 0 }
  | _, _ => s

/-- `Renderer.redo()`: with a non-empty redo stack and a current
snapshot, push the current snapshot on the undo stack, pop the most
recent redo entry, make it current and write it into the base layer;
otherwise do nothing. -/
def Renderer.redo (s : Renderer) : Renderer :=
  match s.currentSnapshot, s.redoStack.getLast? with
  | some cur, some imageData =>
      { s with
        undoStack := s.undoStack ++ [cur]
        redoStack := s.redoStack.dropLast
        currentSnapshot := some imageData
        base := putImageData s.base imageData 0 0 }
  | _, _ => s

/-- `Renderer.clearRedoStack()`. -/
def Renderer.clearRedoStack (s : Renderer) : Renderer :=
  { s with redoStack := [] }

/-- `Renderer.canUndo()`. -/
def Renderer.canUndo (s : Renderer) : Bool :=
  !s.hasSelection && decide (0 < s.undoStack.length)

/-- `Renderer.canRedo()`. -/
def Renderer.canRedo (s : Renderer) : Bool :=
  !s.hasSelection && decide (0 < s.redoStack.length)

/-- `Renderer.setSelectionOverlay(rect)` (the `render()` call only redraws
the visible canvas). -/
def Renderer.setSelectionOverlay (s : Renderer) (r : Option Rect) : Renderer :=
  { s with selectionOverlay := r }

/-- `Renderer.updateZoomAndOffset(zoom, offsetX, offsetY)`. -/
def Renderer.updateZoomAndOffset (s : Renderer) (zoom offsetX offsetY : ℚ) :
    Renderer :=
  { s with zoom := zoom, offsetX := offsetX, offsetY := offsetY }

/-- `Renderer.updateCanvasSize(width, height)` (background-layer refill is
pure drawing). -/
def Renderer.updateCanvasSize (s : Renderer) (width height : ℕ) : Renderer :=
  { s with canvasWidth := width, canvasHeight := height }

/-- `Renderer.resetView()`: fit-to-viewport.  The source compares
`imageAspectRatio > canvasAspectRatio` where the aspect values divide
image by canvas dimensions. -/
def Renderer.resetView (s : Renderer) : Renderer :=
  let imageAspect : ℚ := (s.width : ℚ) / (s.height : ℚ)
  let canvasAspect : ℚ := (s.canvasWidth : ℚ) / (s.canvasHeight : ℚ)
  if canvasAspect < imageAspect then
    let zoom : ℚ := (s.canvasWidth : ℚ) / (s.width : ℚ)
    let offsetX : ℚ := 0
    let offsetY : ℚ := ((s.height : ℚ) - (s.canvasHeight : ℚ) / zoom) / (-2)
    s.updateZoomAndOffset zoom offsetX offsetY
  else
    let zoom : ℚ := (s.canvasHeight : ℚ) / (s.height : ℚ)
    let offsetY : ℚ := 0
    let offsetX : ℚ := ((s.width : ℚ) - (s.canvasWidth : ℚ) / zoom) / (-2)
    s.updateZoomAndOffset zoom offsetX offsetY

/-- Canvas 2D source-over blending of one source pixel onto one
destination pixel (the default `drawImage` composite), with straight
RGBA in and out and byte clamping on store. -/
def blendOver (src dst : Pixel) : Pixel :=
  let alphaS : ℚ := src.a / 255
  let alphaD : ℚ := dst.a / 255
  let alphaO : ℚ := alphaS + alphaD * (1 - alphaS)
  if alphaO = 0 then transparent
  else
    ⟨clamp8 ((src.r * alphaS + dst.r * alphaD * (1 - alphaS)) / alphaO),
     clamp8 ((src.g * alphaS + dst.g * alphaD * (1 - alphaS)) / alphaO),
     clamp8 ((src.b * alphaS + dst.b * alphaD * (1 - alphaS)) / alphaO),
     clamp8 (alphaO * 255)⟩

/-- `ctx.drawImage(src, 0, 0)` on the surface `dst` (unscaled,
source-over). -/
def drawImageOn (dst src : ImageData) : ImageData :=
  ⟨dst.width, dst.height, fun x y =>
    if x < src.width ∧ y < src.height then
      blendOver (src.pix x y) (dst.pix x y)
    else dst.pix x y⟩

/-- `ctx.drawImage(src, dx, dy)` on the surface `dst` at an integral
offset. -/
def drawImageAt (dst src : ImageData) (dx dy : ℤ) : ImageData :=
  ⟨dst.width, dst.height, fun x y =>
    if dx ≤ (x : ℤ) ∧ (x : ℤ) < dx + src.width ∧
        dy ≤ (y : ℤ) ∧ (y : ℤ) < dy + src.height then
      blendOver (getPixel src ((x : ℤ) - dx) ((y : ℤ) - dy)) (dst.pix x y)
    else dst.pix x y⟩

/-- `Renderer.setEditImage(imageData)`: sets `hasSelection` from the
argument's nullness; when a selection overlay exists, clears the edit
layer and (for non-null data) puts the raster at the selection origin. -/
def Renderer.setEditImage (s : Renderer) (imageData : Option ImageData) :
    Renderer :=
  let s1 := { s with hasSelection := imageData.isSome }
  match s1.selectionOverlay with
  | some sel =>
      let cleared := clearLayer s1.editLayer
      let edit2 :=
        match imageData with
        | some d => putImageData cleared d (jsTrunc sel.x) (jsTrunc sel.y)
        | none => cleared
      { s1 with editLayer := edit2, hasSelection := imageData.isSome }
  | none => s1

/-- `Renderer.setBaseImage(image, updateSelectionOverlay)`: resizes the
four image layers (resizing a canvas clears it), draws the image into the
base layer, optionally installs the 1024×1024 centered selection overlay,
then `resetView()` and `snapshot()`. -/
def Renderer.setBaseImage (s : Renderer) (image : ImageData)
    (updateSelectionOverlay : Bool) : Renderer :=
  let s1 := { s with
    base := blankImage image.width image.height
    refLayer := blankImage image.width image.height
    editLayer := blankImage image.width image.height
    overlayLayer := blankImage image.width image.height
    width := image.width
    height := image.height }
  let s2 := { s1 with base := drawImageOn s1.base image }
  let s3 :=
    if updateSelectionOverlay then
      s2.setSelectionOverlay (some
        ⟨((image.width : ℚ) - 1024) / 2, ((image.height : ℚ) - 1024) / 2,
         1024, 1024⟩)
    else s2
  s3.resetView.snapshot

/-- `Renderer.commitSelection()`: blends base and edit layer on a
temporary canvas, draws the blend back onto the base layer, then
`setEditImage(null)` and `snapshot()`. -/
def Renderer.commitSelection (s : Renderer) : Renderer :=
  let tempCanvas := blankImage s.base.width s.base.height
  let tempCanvas := drawImageOn tempCanvas s.base
  let tempCanvas := drawImageOn tempCanvas s.editLayer
  let s1 := { s with base := drawImageOn s.base tempCanvas }
  (s1.setEditImage none).snapshot

/-- `Renderer.copyEditImageFromBaseImage()`. -/
def Renderer.copyEditImageFromBaseImage (s : Renderer) : Renderer :=
  { s with editLayer := drawImageOn s.editLayer s.base, hasSelection := true }

/-- `Renderer.erasePoint(brushx, brushy, brushSize)`: throws without a
selection overlay; otherwise reads a brushSize×brushSize base-layer
window centered on the brush (a zero brush size makes this read raise
`IndexSizeError`), sets alpha to 0 for window pixels that pass the
margin-adjusted selection containment test and lie strictly within
brushSize/2 of the window center (the source compares
`Math.sqrt(d) < brushSize/2`, equivalently `d < (brushSize/2)^2`), and
writes the window back.  Window pixel `(x, y)` is the source's
`x = (i/4) % brushSize`, `y = Math.floor(i/4/brushSize)`. -/
def Renderer.erasePoint (s : Renderer) (brushx brushy : ℚ) (brushSize : ℕ) :
    Except String Renderer :=
  match s.selectionOverlay with
  | none => .error "No selection overlay"
  | some sel =>
      let ox := jsTrunc (brushx - brushSize / 2)
      let oy := jsTrunc (brushy - brushSize / 2)
      match getImageDataChecked s.base ox oy brushSize brushSize with
      | .error e => .error e
      | .ok imageData =>
        let imageData2 : ImageData := ⟨brushSize, brushSize, fun x y =>
          let p := imageData.pix x y
          let absx : ℚ := (x : ℚ) - brushSize / 2 + brushx
          let leftEdge := if 0 < sel.x then sel.x + 10 else sel.x
          let rightEdge :=
            if sel.x + sel.width < (s.width : ℚ) then sel.x + sel.width - 10
            else sel.x + sel.width
          let topEdge := if 0 < sel.y then sel.y + 10 else sel.y
          let bottomEdge :=
            if sel.y + sel.height < (s.canvasHeight : ℚ) then
              sel.y + sel.height - 10
            else sel.y + sel.height
          let containsx := leftEdge < absx ∧ absx < rightEdge
          let absy : ℚ := (y : ℚ) - brushSize / 2 + brushy
          let containsy := topEdge < absy ∧ absy < bottomEdge
          if ¬ (containsx ∧ containsy) then p
          else if ((x : ℚ) - brushSize / 2) ^ 2 + ((y : ℚ) - brushSize / 2) ^ 2 <
              ((brushSize : ℚ) / 2) ^ 2 then
            { p with a := 0 }
          else p⟩
        .ok { s with base := putImageData s.base imageData2 ox oy }

/-- `Renderer.expandToOverlay()`: throws without a selection overlay;
otherwise allocates a canvas bounding image and selection, draws the base
image shifted by the clamped negative selection origin, clamps the
selection origin to ≥ 0 and calls `setBaseImage` with the selection reset
disabled.  Canvas sizes and draw offsets are integral (fractional values
are coerced); no claim exercises a fractional-offset draw. -/
def Renderer.expandToOverlay (s : Renderer) : Except String Renderer :=
  match s.selectionOverlay with
  | none => .error "No selection overlay"
  | some sel =>
      let minX := min 0 sel.x
      let minY := min 0 sel.y
      let maxX := max (sel.x + sel.width) (s.base.width : ℚ)
      let maxY := max (sel.y + sel.height) (s.base.height : ℚ)
      let width := maxX - minX
      let height := maxY - minY
      let newCanvas := blankImage (jsTrunc width).toNat (jsTrunc height).toNat
      let newCanvas := drawImageAt newCanvas s.base
        (jsTrunc (max 0 (-sel.x))) (jsTrunc (max 0 (-sel.y)))
      let sel2 := { sel with
        x := if sel.x < 0 then 0 else sel.x
        y := if sel.y < 0 then 0 else sel.y }
      .ok (Renderer.setBaseImage { s with selectionOverlay := some sel2 }
        newCanvas false)

/-- `Renderer.convertMaskToErasure(erasure)`: per pixel, white
(`data[i] === 255`, a red-channel test) becomes transparent white,
anything else opaque black. -/
def convertMaskToErasure (erasure : ImageData) : ImageData :=
  ⟨erasure.width, erasure.height, fun x y =>
    if (erasure.pix x y).r = 255 then ⟨255, 255, 255, 0⟩
    else ⟨0, 0, 0, 255⟩⟩

/-- `Renderer.convertErasureToMask(mask)`: per pixel, white
(`data[i + 3] < 255`, an alpha-channel test) becomes opaque white,
anything else opaque black. -/
def convertErasureToMask (mask : ImageData) : ImageData :=
  ⟨mask.width, mask.height, fun x y =>
    if (mask.pix x y).a < 255 then ⟨255, 255, 255, 255⟩
    else ⟨0, 0, 0, 255⟩⟩

/-- Membership of window pixel `(x, y)` in the brush disk: distance from
the window center `(brushSize/2, brushSize/2)` is at most `brushSize/2`
(the squared form of the source's `Math.sqrt(...) <= brushSize/2`). -/
abbrev inBrush (brushSize x y : ℕ) : Prop :=
  ((x : ℚ) - brushSize / 2) ^ 2 + ((y : ℚ) - brushSize / 2) ^ 2 ≤
    ((brushSize : ℚ) / 2) ^ 2

/-- The window coordinates inside the brush disk (the pixels the
averaging and rewriting loops of `smudgeLine` act on). -/
def brushDisk (brushSize : ℕ) : Finset (ℕ × ℕ) :=
  (Finset.range brushSize ×ˢ Finset.range brushSize).filter fun p =>
    inBrush brushSize p.1 p.2

/-- One step of `Renderer.smudgeLine`: read a brushSize×brushSize window
at `(ox, oy)`, average R/G/B over the pixels in the brush disk, rewrite
those pixels' R/G/B as `average*brushOpacity + original*(1-brushOpacity)`
(alpha untouched), and put the window back. -/
def smudgeStep (img : ImageData) (ox oy : ℤ) (brushSize : ℕ)
    (brushOpacity : ℚ) : ImageData :=
  let imageData := getImageData img ox oy brushSize brushSize
  let count : ℚ := (brushDisk brushSize).card
  let totalRed : ℚ := ∑ p in brushDisk brushSize, ((imageData.pix p.1 p.2).r : ℚ)
  let totalGreen : ℚ := ∑ p in brushDisk brushSize, ((imageData.pix p.1 p.2).g : ℚ)
  let totalBlue : ℚ := ∑ p in brushDisk brushSize, ((imageData.pix p.1 p.2).b : ℚ)
  let averageRed := totalRed / count
  let averageGreen := totalGreen / count
  let averageBlue := totalBlue / count
  let imageData2 : ImageData := ⟨brushSize, brushSize, fun x y =>
    let p := imageData.pix x y
    if inBrush brushSize x y then
      ⟨clamp8 (averageRed * brushOpacity + p.r * (1 - brushOpacity)),
       clamp8 (averageGreen * brushOpacity + p.g * (1 - brushOpacity)),
       clamp8 (averageBlue * brushOpacity + p.b * (1 - brushOpacity)),
       p.a⟩
    else p⟩
  putImageData img imageData2 ox oy

/-- Truncation toward zero of a real number (canvas integral coercion of
the possibly irrational step positions in `smudgeLine`). -/
noncomputable def jsTruncR (x : ℝ) : ℤ := if 0 ≤ x then ⌊x⌋ else ⌈x⌉

/-- `Renderer.smudgeLine(x1, y1, x2, y2, brushSize, brushOpacity)`:
normalizes the direction by the line length, then runs `smudgeStep` on
the edit layer at each 1-unit step along the line
(`for (let i = 0; i < length; i++)`: `i` ranges over the naturals below
`length`, i.e. over `List.range ⌈length⌉` since the length is
nonnegative). -/
noncomputable def Renderer.smudgeLine (s : Renderer) (x1 y1 x2 y2 : ℝ)
    (brushSize : ℕ) (brushOpacity : ℚ) : Renderer :=
  let length := Real.sqrt ((x2 - x1) * (x2 - x1) + (y2 - y1) * (y2 - y1))
  let ux := (x2 - x1) / length
  let uy := (y2 - y1) / length
  let edit2 := (List.range ⌈length⌉₊).foldl (fun img i =>
      let x := x1 + i * ux
      let y := y1 + i * uy
      smudgeStep img (jsTruncR (x - brushSize / 2))
        (jsTruncR (y - brushSize / 2)) brushSize brushOpacity)
    s.editLayer
  { s with editLayer := edit2 }

/-! ### Helper lemmas about the embedded operations -/

theorem snapshot_selectionOverlay (s : Renderer) :
    s.snapshot.selectionOverlay = s.selectionOverlay := by
  cases h : s.currentSnapshot <;> simp [Renderer.snapshot, h]

theorem snapshot_base (s : Renderer) : s.snapshot.base = s.base := by
  cases h : s.currentSnapshot <;> simp [Renderer.snapshot, h]

theorem snapshot_hasSelection (s : Renderer) :
    s.snapshot.hasSelection = s.hasSelection := by
  cases h : s.currentSnapshot <;> simp [Renderer.snapshot, h]

theorem snapshot_currentSnapshot (s : Renderer) :
    s.snapshot.currentSnapshot = some (snapCapture s.base) := by
  cases h : s.currentSnapshot <;> simp [Renderer.snapshot, h]

theorem resetView_selectionOverlay (s : Renderer) :
    s.resetView.selectionOverlay = s.selectionOverlay := by
  simp only [Renderer.resetView]
  split <;> rfl

theorem resetView_base (s : Renderer) : s.resetView.base = s.base := by
  simp only [Renderer.resetView]
  split <;> rfl

theorem resetView_hasSelection (s : Renderer) :
    s.resetView.hasSelection = s.hasSelection := by
  simp only [Renderer.resetView]
  split <;> rfl

theorem resetView_currentSnapshot (s : Renderer) :
    s.resetView.currentSnapshot = s.currentSnapshot := by
  simp only [Renderer.resetView]
  split <;> rfl

theorem resetView_redoStack (s : Renderer) :
    s.resetView.redoStack = s.redoStack := by
  simp only [Renderer.resetView]
  split <;> rfl

theorem roundHalfEven_intCast (n : ℤ) : roundHalfEven n = n := by
  simp [roundHalfEven]

theorem clamp8_natCast (n : ℕ) (h : n ≤ 255) : clamp8 (n : ℚ) = n := by
  unfold clamp8
  by_cases h0 : (n : ℚ) ≤ 0
  · have hn : n = 0 := by exact_mod_cast le_antisymm h0 (by positivity)
    simp [h0, hn]
  · rw [if_neg h0]
    by_cases h255 : (255 : ℚ) ≤ (n : ℚ)
    · have hn : n = 255 := le_antisymm h (by exact_mod_cast h255)
      simp [h255, hn]
    · rw [if_neg h255]
      rw [show ((n : ℚ) = ((n : ℤ) : ℚ)) by push_cast; ring, roundHalfEven_intCast]
      simp

theorem clamp8_le_255 (q : ℚ) : clamp8 q ≤ 255 := by
  unfold clamp8
  split
  · omega
  · split
    · omega
    · rename_i h0 h255
      have hq : q < 255 := lt_of_not_le h255
      have hf : ⌊q⌋ < 255 := by
        rw [Int.floor_lt]
        exact_mod_cast hq
      simp only [roundHalfEven]
      split
      · omega
      · split
        · omega
        · split <;> omega

/-! ### C1: snapshot() branch behaviour -/

/-- C1: `snapshot()` captures the current base-layer raster and makes it
the current snapshot; with no prior current snapshot both stacks are
unchanged; otherwise the previous current snapshot is pushed on the undo
stack (the oldest entry evicted once the stack length exceeds 50) and
the redo stack becomes empty. -/
theorem snapshot_branches_spec (s : Renderer) :
    s.snapshot.currentSnapshot = some (snapCapture s.base) ∧
    s.snapshot.undoStack =
      (match s.currentSnapshot with
       | none => s.undoStack
       | some cur =>
           if maxSnapshots < (s.undoStack ++ [cur]).length then
             (s.undoStack ++ [cur]).drop 1
           else s.undoStack ++ [cur]) ∧
    s.snapshot.redoStack =
      (match s.currentSnapshot with
       | none => s.redoStack
       | some _ => []) := by
  refine ⟨snapshot_currentSnapshot s, ?_, ?_⟩ <;>
    rcases h : s.currentSnapshot with _ | cur <;>
      rcases hr : s.redoStack with _ | ⟨a, l⟩ <;>
        simp [Renderer.snapshot, h, hr]

/-! ### C9: the mask/erasure converters are not inverses -/

/-- C9: `convertMaskToErasure` (red-channel test `data[i] === 255`) and
`convertErasureToMask` (alpha test `data[i+3] < 255`) are not exact
inverses: in both composition orders some raster is not reproduced. -/
theorem converters_not_inverses :
    (∃ img : ImageData, convertErasureToMask (convertMaskToErasure img) ≠ img) ∧
    (∃ img : ImageData, convertMaskToErasure (convertErasureToMask img) ≠ img) := by
  constructor
  · refine ⟨⟨1, 1, fun _ _ => ⟨0, 0, 0, 0⟩⟩, fun h => ?_⟩
    have h0 := congrArg (fun im => (im.pix 0 0).a) h
    simp [convertMaskToErasure, convertErasureToMask] at h0
  · refine ⟨⟨1, 1, fun _ _ => ⟨255, 0, 0, 255⟩⟩, fun h => ?_⟩
    have h0 := congrArg (fun im => (im.pix 0 0).r) h
    simp [convertMaskToErasure, convertErasureToMask] at h0

/-! ### C7: resetView() fit-to-viewport formulas -/

/-- C7: `resetView()` for an image relatively wider than the viewport
(`imageWidth/imageHeight > viewportWidth/viewportHeight`) sets
`zoom = viewportWidth/imageWidth`, `offsetX = 0` and
`offsetY = (imageHeight − viewportHeight/zoom) / −2`; otherwise
(ties included) `zoom = viewportHeight/imageHeight`, `offsetY = 0` and
`offsetX = (imageWidth − viewportWidth/zoom) / −2`. -/
theorem resetView_spec (s : Renderer) (hw : 0 < s.width) (hh : 0 < s.height)
    (hcw : 0 < s.canvasWidth) (hch : 0 < s.canvasHeight) :
    if (s.canvasWidth : ℚ) / s.canvasHeight < (s.width : ℚ) / s.height then
      s.resetView.zoom = (s.canvasWidth : ℚ) / s.width ∧
      s.resetView.offsetX = 0 ∧
      s.resetView.offsetY =
        ((s.height : ℚ) - (s.canvasHeight : ℚ) / ((s.canvasWidth : ℚ) / s.width)) / (-2)
    else
      s.resetView.zoom = (s.canvasHeight : ℚ) / s.height ∧
      s.resetView.offsetY = 0 ∧
      s.resetView.offsetX =
        ((s.width : ℚ) - (s.canvasWidth : ℚ) / ((s.canvasHeight : ℚ) / s.height)) / (-2) := by
  simp only [Renderer.resetView, Renderer.updateZoomAndOffset]
  split <;> simp_all

/-- Witness for C7 at a concrete wider-than-viewport state. -/
def c7State : Renderer := { initRenderer 100 100 with width := 200, height := 100 }

theorem resetView_spec_witness :
    0 < c7State.width ∧ 0 < c7State.height ∧
    0 < c7State.canvasWidth ∧ 0 < c7State.canvasHeight ∧
    (if (c7State.canvasWidth : ℚ) / c7State.canvasHeight <
        (c7State.width : ℚ) / c7State.height then
      c7State.resetView.zoom = (c7State.canvasWidth : ℚ) / c7State.width ∧
      c7State.resetView.offsetX = 0 ∧
      c7State.resetView.offsetY =
        ((c7State.height : ℚ) -
          (c7State.canvasHeight : ℚ) / ((c7State.canvasWidth : ℚ) / c7State.width)) / (-2)
    else
      c7State.resetView.zoom = (c7State.canvasHeight : ℚ) / c7State.height ∧
      c7State.resetView.offsetY = 0 ∧
      c7State.resetView.offsetX =
        ((c7State.width : ℚ) -
          (c7State.canvasWidth : ℚ) / ((c7State.canvasHeight : ℚ) / c7State.height)) / (-2)) :=
  ⟨by decide, by decide, by decide, by decide,
    resetView_spec c7State (by decide) (by decide) (by decide) (by decide)⟩

/-! ### C8: synchronous errors of erasePoint and expandToOverlay -/

/-- State for the C8 counterexample: a selection overlay is set. -/
def c8State : Renderer := { initRenderer 10 10 with
  base := ⟨4, 4, fun _ _ => ⟨1, 2, 3, 255⟩⟩
  width := 4
  height := 4
  selectionOverlay := some ⟨0, 0, 4, 4⟩ }

/-- Counterexample to C8 as stated: with a SelectionRegion set,
`erasePoint(2, 2, 0)` still raises synchronously - the zero-size
`ctx.getImageData(..., 0, 0)` read throws `IndexSizeError` - so
"when a SelectionRegion is set they complete without raising" fails. -/
theorem erasePoint_zero_size_counterexample :
    c8State.selectionOverlay = some ⟨0, 0, 4, 4⟩ ∧
    c8State.erasePoint 2 2 0 = Except.error "IndexSizeError" := by
  refine ⟨by decide, ?_⟩
  with_unfolding_all rfl

/-- C8 (amended): `erasePoint` raises a synchronous error exactly when
no SelectionRegion is set (InvalidState) or the brush size is zero (the
zero-size window read raises `IndexSizeError`); `expandToOverlay`
raises exactly when no SelectionRegion is set; with a SelectionRegion
set - and a nonzero brush size for `erasePoint` - both complete without
raising. -/
theorem invalidState_errors (s : Renderer) (brushx brushy : ℚ) (brushSize : ℕ) :
    ((∃ e, s.erasePoint brushx brushy brushSize = Except.error e) ↔
      (s.selectionOverlay = none ∨ brushSize = 0)) ∧
    ((∃ s2, s.erasePoint brushx brushy brushSize = Except.ok s2) ↔
      (s.selectionOverlay ≠ none ∧ brushSize ≠ 0)) ∧
    ((∃ e, s.expandToOverlay = Except.error e) ↔ s.selectionOverlay = none) ∧
    ((∃ s2, s.expandToOverlay = Except.ok s2) ↔ s.selectionOverlay ≠ none) := by
  rcases h : s.selectionOverlay with _ | sel
  · simp [Renderer.erasePoint, Renderer.expandToOverlay, h]
  · rcases Nat.eq_zero_or_pos brushSize with hb | hb
    · subst hb
      simp [Renderer.erasePoint, Renderer.expandToOverlay, getImageDataChecked, h]
    · simp [Renderer.erasePoint, Renderer.expandToOverlay, getImageDataChecked,
        h, hb.ne']

/-! ### C5: setBaseImage selection placement (no clamping in the code) -/

/-- A 512×512 input image for the C5 counterexample. -/
def c5Image : ImageData := blankImage 512 512

/-- Counterexample to C5 as stated: for a 512×512 image,
`setBaseImage(image, true)` installs the selection
`{x: (512−1024)/2, y: (512−1024)/2, w: 1024, h: 1024}` = origin −256,
which does not lie within the image: there is no clamping. -/
theorem setBaseImage_selection_counterexample :
    ((initRenderer 10 10).setBaseImage c5Image true).selectionOverlay =
      some ⟨-256, -256, 1024, 1024⟩ ∧
    ¬ (0 ≤ (-256 : ℚ) ∧ (-256 : ℚ) + 1024 ≤ (512 : ℚ)) := by
  constructor
  · simp only [Renderer.setBaseImage, if_pos]
    rw [snapshot_selectionOverlay, resetView_selectionOverlay]
    simp [Renderer.setSelectionOverlay, c5Image, blankImage]
    norm_num
  · decide

/-- C5 (amended): `setBaseImage(image, true)` installs a 1024×1024
selection centered on the image at `x = (width−1024)/2`,
`y = (height−1024)/2` with no clamping; it lies within the image bounds
when the image is at least 1024×1024. -/
theorem setBaseImage_selection_spec (s : Renderer) (image : ImageData) :
    (s.setBaseImage image true).selectionOverlay =
      some ⟨((image.width : ℚ) - 1024) / 2, ((image.height : ℚ) - 1024) / 2,
            1024, 1024⟩ ∧
    (1024 ≤ image.width → 1024 ≤ image.height →
      0 ≤ ((image.width : ℚ) - 1024) / 2 ∧
      0 ≤ ((image.height : ℚ) - 1024) / 2 ∧
      ((image.width : ℚ) - 1024) / 2 + 1024 ≤ (image.width : ℚ) ∧
      ((image.height : ℚ) - 1024) / 2 + 1024 ≤ (image.height : ℚ)) := by
  constructor
  · simp only [Renderer.setBaseImage, if_pos]
    rw [snapshot_selectionOverlay, resetView_selectionOverlay]
    simp [Renderer.setSelectionOverlay]
  · intro h1 h2
    have hw : (1024 : ℚ) ≤ (image.width : ℚ) := by exact_mod_cast h1
    have hh : (1024 : ℚ) ≤ (image.height : ℚ) := by exact_mod_cast h2
    refine ⟨by linarith, by linarith, by linarith, by linarith⟩

/-- Witness for C5 (amended) at a 2048×1536 image: the installed
selection is `{512, 256, 1024, 1024}`, inside the image. -/
theorem setBaseImage_selection_spec_witness :
    ((initRenderer 10 10).setBaseImage (blankImage 2048 1536) true).selectionOverlay =
      some ⟨(((blankImage 2048 1536).width : ℚ) - 1024) / 2,
            (((blankImage 2048 1536).height : ℚ) - 1024) / 2, 1024, 1024⟩ ∧
    (1024 ≤ (2048 : ℕ) ∧ 1024 ≤ (1536 : ℕ)) ∧
    (0 ≤ (((blankImage 2048 1536).width : ℚ) - 1024) / 2 ∧
      0 ≤ (((blankImage 2048 1536).height : ℚ) - 1024) / 2 ∧
      (((blankImage 2048 1536).width : ℚ) - 1024) / 2 + 1024 ≤
        ((blankImage 2048 1536).width : ℚ) ∧
      (((blankImage 2048 1536).height : ℚ) - 1024) / 2 + 1024 ≤
        ((blankImage 2048 1536).height : ℚ)) :=
  ⟨(setBaseImage_selection_spec (initRenderer 10 10) (blankImage 2048 1536)).1,
   ⟨by decide, by decide⟩,
   (setBaseImage_selection_spec (initRenderer 10 10) (blankImage 2048 1536)).2
     (by decide) (by decide)⟩

/-! ### C3: erasePoint bottom margin compares against the canvas height -/

/-- State for the C3 failing input: a 4×4 base image inside a 20×20
viewport canvas, with the selection overlay covering the whole image
(every selection edge coincides with the corresponding image edge). -/
def c3State : Renderer := { initRenderer 20 20 with
  base := ⟨4, 4, fun _ _ => ⟨10, 20, 30, 255⟩⟩
  width := 4
  height := 4
  selectionOverlay := some ⟨0, 0, 4, 4⟩ }

/-- C3 failing input: every selection edge coincides with the
corresponding image edge, so by the claim no margin applies and
`erasePoint(2, 2, 4)` should set the alpha of the center pixel (2,2)
(at distance 0 < 4/2 from the brush center) to 0.  The code instead
compares the selection's bottom edge (4) against `this.canvas.height`
(20, the viewport), applies the 10-unit bottom margin (bottom bound
4 − 10 = −6) and erases nothing: the pixel keeps alpha 255. -/
theorem erasePoint_bottom_margin_uses_canvas_height :
    (c3State.erasePoint 2 2 4).toOption.map (fun s2 => (s2.base.pix 2 2).a) =
      some 255 ∧
    c3State.selectionOverlay = some ⟨0, 0, 4, 4⟩ ∧
    c3State.width = 4 ∧ c3State.height = 4 ∧ c3State.canvasHeight = 20 ∧
    ((2 : ℚ) - 4 / 2) ^ 2 + ((2 : ℚ) - 4 / 2) ^ 2 < ((4 : ℚ) / 2) ^ 2 := by
  refine ⟨?_, by decide, by decide, by decide, by decide, by norm_num⟩
  with_unfolding_all decide

/-! ### C2: undo();redo() restores the base raster after snapshot runs -/

/-- Writing a full-extent capture of `b` back into a surface with `b`'s
dimensions reproduces `b`'s raster byte for byte. -/
theorem putImageData_snapCapture_sameRaster (t b : ImageData)
    (hw : t.width = b.width) (hh : t.height = b.height) :
    (putImageData t (snapCapture b) 0 0).sameRaster b := by
  refine ⟨hw, hh, fun x y hx hy => ?_⟩
  have hx2 : x < b.width := hw ▸ hx
  have hy2 : y < b.height := hh ▸ hy
  simp only [putImageData, snapCapture, getImageData, getPixel]
  have c1 : (0 : ℤ) ≤ (x : ℤ) := by positivity
  have c2 : (x : ℤ) < 0 + (b.width : ℤ) := by omega
  have c3 : (0 : ℤ) ≤ (y : ℤ) := by positivity
  have c4 : (y : ℤ) < 0 + (b.height : ℤ) := by omega
  rw [if_pos ⟨c1, c2, c3, c4⟩]
  simp only [sub_zero]
  rw [if_pos (by omega : 0 ≤ (x:ℤ) ∧ (x:ℤ) < (b.width:ℤ) ∧ 0 ≤ (y:ℤ) ∧ (y:ℤ) < (b.height:ℤ))]
  simp only [Int.toNat_natCast]
  rw [if_pos ⟨hx2, hy2⟩, if_pos]
  · simp [hx2, hy2]
  · omega

/-- A run of `snapshot()` calls; each list entry is the base-layer
raster at the time of the corresponding call (drawing operations between
calls mutate the base layer in place). -/
def snapshotRun (s0 : Renderer) (rs : List ImageData) : Renderer :=
  rs.foldl (fun s r => Renderer.snapshot { s with base := r }) s0

/-- After any snapshot the current snapshot is the capture of the
current base layer; a non-empty run establishes this from any start. -/
theorem snapshotRun_inv : ∀ (rs : List ImageData) (s0 : Renderer),
    s0.currentSnapshot = some (snapCapture s0.base) ∨ rs ≠ [] →
    (snapshotRun s0 rs).currentSnapshot =
      some (snapCapture (snapshotRun s0 rs).base)
  | [], _, h => by
      cases h with
      | inl h => exact h
      | inr h => exact absurd rfl h
  | r :: rs, s0, _ =>
      snapshotRun_inv rs _
        (Or.inl (by rw [snapshot_currentSnapshot, snapshot_base]))

/-- In any state whose current snapshot is the capture of the current
base layer (which holds right after any `snapshot()`), `undo()` then
`redo()` restores the base raster byte for byte. -/
theorem undo_redo_restores (s : Renderer)
    (hc : s.currentSnapshot = some (snapCapture s.base))
    (hu : s.undoStack ≠ []) :
    ((s.undo true).redo).base.sameRaster s.base := by
  obtain ⟨u, hlast⟩ : ∃ u, s.undoStack.getLast? = some u := by
    cases h : s.undoStack.getLast? with
    | none => exact absurd (List.getLast?_eq_none_iff.mp h) hu
    | some u => exact ⟨u, rfl⟩
  simp only [Renderer.undo, hc, hlast, if_true]
  simp only [Renderer.redo, List.getLast?_concat]
  exact putImageData_snapCapture_sameRaster _ _ rfl rfl

/-- C2: for a state reached by at most 50 `snapshot()` calls from a
fresh renderer, with a non-empty undo stack and no active selection,
`undo()` then `redo()` leaves the base-layer raster byte-identical to
the raster present immediately before the `undo()`. -/
theorem undoRedo_roundtrip_after_snapshots (canvasW canvasH : ℕ)
    (rs : List ImageData) (hlen : rs.length ≤ 50)
    (hundo : (snapshotRun (initRenderer canvasW canvasH) rs).undoStack ≠ [])
    (hsel : (snapshotRun (initRenderer canvasW canvasH) rs).hasSelection = false) :
    (((snapshotRun (initRenderer canvasW canvasH) rs).undo true).redo).base.sameRaster
      (snapshotRun (initRenderer canvasW canvasH) rs).base := by
  have hne : rs ≠ [] := by
    rintro rfl
    exact hundo rfl
  exact undo_redo_restores _ (snapshotRun_inv rs _ (Or.inr hne)) hundo

/-- Concrete rasters for the C2 witness run. -/
def c2ImgA : ImageData := ⟨2, 2, fun _ _ => ⟨1, 2, 3, 255⟩⟩

/-- Second concrete raster for the C2 witness run. -/
def c2ImgB : ImageData := ⟨2, 2, fun _ _ => ⟨4, 5, 6, 255⟩⟩

theorem undoRedo_roundtrip_after_snapshots_witness :
    ([c2ImgA, c2ImgB].length ≤ 50) ∧
    (snapshotRun (initRenderer 8 8) [c2ImgA, c2ImgB]).undoStack ≠ [] ∧
    (snapshotRun (initRenderer 8 8) [c2ImgA, c2ImgB]).hasSelection = false ∧
    (((snapshotRun (initRenderer 8 8) [c2ImgA, c2ImgB]).undo true).redo).base.sameRaster
      (snapshotRun (initRenderer 8 8) [c2ImgA, c2ImgB]).base := by
  have hu : (snapshotRun (initRenderer 8 8) [c2ImgA, c2ImgB]).undoStack ≠ [] :=
    List.ne_nil_of_length_pos (by decide)
  exact ⟨by decide, hu, by decide,
    undoRedo_roundtrip_after_snapshots 8 8 [c2ImgA, c2ImgB] (by decide) hu (by decide)⟩

/-! ### C10: non-empty redo stack implies a current snapshot exists -/

/-- One engine operation.  `brushDraw`, `refDraw` and `overlayDraw`
over-approximate the canvas-rasterized drawing operations (`drawPoint`,
`drawLine`; `setReferenceImage`/`clearReferenceImage`;
`setOverlayImage`/`clearOverlayImage`) as arbitrary updates of the
respective layer, which touch no history state. -/
inductive RStep : Renderer → Renderer → Prop where
  | snapshot (s : Renderer) : RStep s s.snapshot
  | undo (s : Renderer) (allowRedo : Bool) : RStep s (s.undo allowRedo)
  | redo (s : Renderer) : RStep s s.redo
  | clearRedoStack (s : Renderer) : RStep s s.clearRedoStack
  | setSelectionOverlay (s : Renderer) (r : Option Rect) :
      RStep s (s.setSelectionOverlay r)
  | updateZoomAndOffset (s : Renderer) (z ox oy : ℚ) :
      RStep s (s.updateZoomAndOffset z ox oy)
  | updateCanvasSize (s : Renderer) (w h : ℕ) : RStep s (s.updateCanvasSize w h)
  | resetView (s : Renderer) : RStep s s.resetView
  | setEditImage (s : Renderer) (d : Option ImageData) :
      RStep s (s.setEditImage d)
  | setBaseImage (s : Renderer) (image : ImageData) (upd : Bool) :
      RStep s (s.setBaseImage image upd)
  | commitSelection (s : Renderer) : RStep s s.commitSelection
  | copyEditImageFromBaseImage (s : Renderer) :
      RStep s s.copyEditImageFromBaseImage
  | erasePoint (s : Renderer) (brushx brushy : ℚ) (brushSize : ℕ)
      (s2 : Renderer) : s.erasePoint brushx brushy brushSize = .ok s2 →
      RStep s s2
  | expandToOverlay (s : Renderer) (s2 : Renderer) :
      s.expandToOverlay = .ok s2 → RStep s s2
  | smudgeLine (s : Renderer) (x1 y1 x2 y2 : ℝ) (brushSize : ℕ)
      (brushOpacity : ℚ) : RStep s (s.smudgeLine x1 y1 x2 y2 brushSize brushOpacity)
  | brushDraw (s : Renderer) (e : ImageData) : RStep s { s with editLayer := e }
  | refDraw (s : Renderer) (r0 : ImageData) : RStep s { s with refLayer := r0 }
  | overlayDraw (s : Renderer) (o0 : ImageData) :
      RStep s { s with overlayLayer := o0 }

/-- States reachable from the constructor state. -/
def Reachable (canvasW canvasH : ℕ) (s : Renderer) : Prop :=
  Relation.ReflTransGen RStep (initRenderer canvasW canvasH) s

theorem undo_some_or_id (s : Renderer) (allowRedo : Bool) :
    (s.undo allowRedo).currentSnapshot.isSome = true ∨ s.undo allowRedo = s := by
  rcases hc : s.currentSnapshot with _ | cur <;>
    rcases hl : s.undoStack.getLast? with _ | u <;>
      simp [Renderer.undo, hc, hl]

theorem redo_some_or_id (s : Renderer) :
    s.redo.currentSnapshot.isSome = true ∨ s.redo = s := by
  rcases hc : s.currentSnapshot with _ | cur <;>
    rcases hl : s.redoStack.getLast? with _ | u <;>
      simp [Renderer.redo, hc, hl]

theorem setBaseImage_currentSnapshot_isSome (s : Renderer) (image : ImageData)
    (upd : Bool) : (s.setBaseImage image upd).currentSnapshot.isSome = true := by
  simp only [Renderer.setBaseImage]
  rw [snapshot_currentSnapshot]
  rfl

theorem commitSelection_currentSnapshot_isSome (s : Renderer) :
    s.commitSelection.currentSnapshot.isSome = true := by
  simp only [Renderer.commitSelection]
  rw [snapshot_currentSnapshot]
  rfl

theorem setEditImage_history (s : Renderer) (d : Option ImageData) :
    (s.setEditImage d).redoStack = s.redoStack ∧
    (s.setEditImage d).currentSnapshot = s.currentSnapshot := by
  rcases hsel : s.selectionOverlay with _ | sel <;>
    rcases d with _ | d0 <;> simp [Renderer.setEditImage, hsel]

theorem erasePoint_ok_history (s s2 : Renderer) (brushx brushy : ℚ)
    (brushSize : ℕ) (h : s.erasePoint brushx brushy brushSize = .ok s2) :
    s2.redoStack = s.redoStack ∧ s2.currentSnapshot = s.currentSnapshot := by
  rcases hsel : s.selectionOverlay with _ | sel
  · simp [Renderer.erasePoint, hsel] at h
  · rcases Nat.eq_zero_or_pos brushSize with hb | hb
    · subst hb
      simp [Renderer.erasePoint, getImageDataChecked, hsel] at h
    · simp [Renderer.erasePoint, getImageDataChecked, hsel, hb.ne'] at h
      rw [← h]
      exact ⟨rfl, rfl⟩

theorem expandToOverlay_ok_isSome (s s2 : Renderer)
    (h : s.expandToOverlay = .ok s2) : s2.currentSnapshot.isSome = true := by
  rcases hsel : s.selectionOverlay with _ | sel <;>
    simp [Renderer.expandToOverlay, hsel] at h
  rw [← h]
  exact setBaseImage_currentSnapshot_isSome _ _ _

theorem rstep_preserves_redo_inv {s t : Renderer} (h : RStep s t)
    (inv : s.redoStack ≠ [] → s.currentSnapshot.isSome = true) :
    t.redoStack ≠ [] → t.currentSnapshot.isSome = true := by
  cases h with
  | snapshot => intro _; rw [snapshot_currentSnapshot]; rfl
  | undo allowRedo =>
      rcases undo_some_or_id s allowRedo with h2 | h2
      · exact fun _ => h2
      · rw [h2]; exact inv
  | redo =>
      rcases redo_some_or_id s with h2 | h2
      · exact fun _ => h2
      · rw [h2]; exact inv
  | clearRedoStack => intro hr; exact absurd rfl hr
  | setSelectionOverlay r => exact inv
  | updateZoomAndOffset z ox oy => exact inv
  | updateCanvasSize w h => exact inv
  | resetView =>
      intro hr
      rw [resetView_currentSnapshot]
      exact inv (by rwa [resetView_redoStack] at hr)
  | setEditImage d =>
      intro hr
      rw [(setEditImage_history s d).2]
      exact inv ((setEditImage_history s d).1 ▸ hr)
  | setBaseImage image upd =>
      exact fun _ => setBaseImage_currentSnapshot_isSome s image upd
  | commitSelection => exact fun _ => commitSelection_currentSnapshot_isSome s
  | copyEditImageFromBaseImage => exact inv
  | erasePoint brushx brushy brushSize =>
      rename_i h2
      intro hr
      rw [(erasePoint_ok_history s t brushx brushy brushSize h2).2]
      exact inv ((erasePoint_ok_history s t brushx brushy brushSize h2).1 ▸ hr)
  | expandToOverlay =>
      rename_i h2
      exact fun _ => expandToOverlay_ok_isSome s t h2
  | smudgeLine x1 y1 x2 y2 brushSize brushOpacity => exact inv
  | brushDraw e => exact inv
  | refDraw r0 => exact inv
  | overlayDraw o0 => exact inv

theorem reachable_redo_inv (canvasW canvasH : ℕ) (s : Renderer)
    (h : Reachable canvasW canvasH s) :
    s.redoStack ≠ [] → s.currentSnapshot.isSome = true := by
  induction h with
  | refl => intro hr; exact absurd rfl hr
  | tail _ hstep ih => exact rstep_preserves_redo_inv hstep ih

/-- C10: in every reachable state, a non-empty redo stack implies a
current snapshot exists, so `redo()` with a non-empty redo stack always
performs the restore: it pushes the current snapshot, pops the most
recent redo entry, installs it as current and writes it into the base
layer. -/
theorem redo_guard_invariant (canvasW canvasH : ℕ) (s : Renderer)
    (hreach : Reachable canvasW canvasH s) (hredo : s.redoStack ≠ []) :
    s.currentSnapshot.isSome = true ∧
    s.redo.undoStack = s.undoStack ++ s.currentSnapshot.toList ∧
    s.redo.redoStack = s.redoStack.dropLast ∧
    s.redo.currentSnapshot = s.redoStack.getLast? ∧
    some s.redo.base = s.redoStack.getLast?.map (fun r2 => putImageData s.base r2 0 0) := by
  have hsome := reachable_redo_inv canvasW canvasH s hreach hredo
  obtain ⟨cur, hc⟩ := Option.isSome_iff_exists.mp hsome
  obtain ⟨r2, hl⟩ : ∃ r2, s.redoStack.getLast? = some r2 := by
    cases h : s.redoStack.getLast? with
    | none => exact absurd (List.getLast?_eq_none_iff.mp h) hredo
    | some r2 => exact ⟨r2, rfl⟩
  simp [Renderer.redo, hc, hl, Option.toList]

/-- A concrete reachable state with a non-empty redo stack for the C10
witness: two snapshots then one undo. -/
def c10State : Renderer := ((initRenderer 4 4).snapshot.snapshot).undo true

theorem redo_guard_invariant_witness :
    Reachable 4 4 c10State ∧ c10State.redoStack ≠ [] ∧
    (c10State.currentSnapshot.isSome = true ∧
     c10State.redo.undoStack = c10State.undoStack ++ c10State.currentSnapshot.toList ∧
     c10State.redo.redoStack = c10State.redoStack.dropLast ∧
     c10State.redo.currentSnapshot = c10State.redoStack.getLast? ∧
     some c10State.redo.base =
       c10State.redoStack.getLast?.map (fun r2 => putImageData c10State.base r2 0 0)) := by
  have hreach : Reachable 4 4 c10State :=
    Relation.ReflTransGen.tail
      (Relation.ReflTransGen.tail
        (Relation.ReflTransGen.tail Relation.ReflTransGen.refl (RStep.snapshot _))
        (RStep.snapshot _))
      (RStep.undo _ true)
  have hredo : c10State.redoStack ≠ [] := List.ne_nil_of_length_pos (by decide)
  exact ⟨hreach, hredo, redo_guard_invariant 4 4 c10State hreach hredo⟩

/-! ### C4: commitSelection() -/

/-- A well-formed fully opaque pixel. -/
def Opaque8 (p : Pixel) : Prop := p.r ≤ 255 ∧ p.g ≤ 255 ∧ p.b ≤ 255 ∧ p.a = 255

theorem blendOver_opaque_src (src dst : Pixel) (h : Opaque8 src) :
    blendOver src dst = src := by
  rcases src with ⟨r, g, b, a⟩
  obtain ⟨h1, h2, h3, h4⟩ := h
  simp only at h4
  subst h4
  simp only [blendOver]
  norm_num
  exact ⟨clamp8_natCast r h1, clamp8_natCast g h2, clamp8_natCast b h3,
    clamp8_natCast 255 le_rfl⟩

theorem blendOver_onto_solid (src dst : Pixel) (hd : dst.a = 255) :
    Opaque8 (blendOver src dst) := by
  simp only [blendOver, hd]
  have hao : (src.a : ℚ) / 255 + (255 : ℕ) / 255 * (1 - (src.a : ℚ) / 255) = 1 := by
    push_cast
    ring_nf
  rw [hao]
  norm_num
  exact ⟨clamp8_le_255 _, clamp8_le_255 _, clamp8_le_255 _,
    clamp8_natCast 255 le_rfl⟩

theorem setEditImage_base (s : Renderer) (d : Option ImageData) :
    (s.setEditImage d).base = s.base := by
  rcases hsel : s.selectionOverlay with _ | sel <;>
    rcases d with _ | d0 <;> simp [Renderer.setEditImage, hsel]

theorem setEditImage_undoStack (s : Renderer) (d : Option ImageData) :
    (s.setEditImage d).undoStack = s.undoStack := by
  rcases hsel : s.selectionOverlay with _ | sel <;>
    rcases d with _ | d0 <;> simp [Renderer.setEditImage, hsel]

theorem setEditImage_hasSelection (s : Renderer) (d : Option ImageData) :
    (s.setEditImage d).hasSelection = d.isSome := by
  rcases hsel : s.selectionOverlay with _ | sel <;>
    rcases d with _ | d0 <;> simp [Renderer.setEditImage, hsel]

theorem snapshot_undoStack_some (t : Renderer) (cur : ImageData)
    (hc : t.currentSnapshot = some cur) :
    t.snapshot.undoStack =
      if maxSnapshots < (t.undoStack ++ [cur]).length then
        (t.undoStack ++ [cur]).drop 1
      else t.undoStack ++ [cur] := by
  simp [Renderer.snapshot, hc]

/-- The undo stack produced by a push-then-evict keeps the pushed entry
last and stays non-empty. -/
theorem evict_getLast (u : List ImageData) (cur : ImageData) :
    (if maxSnapshots < (u ++ [cur]).length then (u ++ [cur]).drop 1
     else u ++ [cur]).getLast? = some cur ∧
    0 < (if maxSnapshots < (u ++ [cur]).length then (u ++ [cur]).drop 1
         else u ++ [cur]).length := by
  split
  · rename_i h
    have h1 : 1 ≤ u.length := by
      simp only [List.length_append, List.length_singleton] at h
      unfold maxSnapshots at h
      omega
    rw [List.drop_append_of_le_length h1, List.getLast?_concat]
    refine ⟨rfl, ?_⟩
    simp only [List.length_append, List.length_drop, List.length_singleton]
    omega
  · rw [List.getLast?_concat]
    refine ⟨rfl, ?_⟩
    simp

/-- C4 (amended): when the current snapshot is in sync with the base
layer (as after any `snapshot()`) and the base layer is fully opaque,
`commitSelection()` leaves `hasSelection() = false`, makes the base
layer the previous base with the edit layer composited on top, produces
a new reachable undo point, and a subsequent `undo()` restores the
base-layer raster byte-identical to its pre-commit content. -/
theorem commitSelection_spec (s : Renderer)
    (hsync : s.currentSnapshot = some (snapCapture s.base))
    (hsolid : ∀ x y, x < s.base.width → y < s.base.height →
      Opaque8 (s.base.pix x y))
    (hew : s.editLayer.width = s.base.width)
    (heh : s.editLayer.height = s.base.height) :
    s.commitSelection.hasSelection = false ∧
    s.commitSelection.base.sameRaster (drawImageOn s.base s.editLayer) ∧
    s.commitSelection.undoStack ≠ [] ∧
    s.commitSelection.canUndo = true ∧
    (s.commitSelection.undo true).base.sameRaster s.base := by
  have hB : s.commitSelection.base =
      drawImageOn s.base
        (drawImageOn (drawImageOn (blankImage s.base.width s.base.height) s.base)
          s.editLayer) := by
    simp only [Renderer.commitSelection, snapshot_base, setEditImage_base]
  have hsel : s.commitSelection.hasSelection = false := by
    simp only [Renderer.commitSelection, snapshot_hasSelection,
      setEditImage_hasSelection, Option.isSome_none]
  have hstack : s.commitSelection.undoStack =
      if maxSnapshots < (s.undoStack ++ [snapCapture s.base]).length then
        (s.undoStack ++ [snapCapture s.base]).drop 1
      else s.undoStack ++ [snapCapture s.base] := by
    have key : ∀ t : Renderer, t.currentSnapshot = some (snapCapture s.base) →
        t.undoStack = s.undoStack →
        ((t.setEditImage none).snapshot).undoStack =
          if maxSnapshots < (s.undoStack ++ [snapCapture s.base]).length then
            (s.undoStack ++ [snapCapture s.base]).drop 1
          else s.undoStack ++ [snapCapture s.base] := by
      intro t hc hu
      rw [snapshot_undoStack_some _ (snapCapture s.base)
        (((setEditImage_history t none).2).trans hc)]
      rw [setEditImage_undoStack, hu]
    simp only [Renderer.commitSelection]
    exact key _ hsync rfl
  have hlenpos : 0 < s.commitSelection.undoStack.length := by
    rw [hstack]; exact (evict_getLast s.undoStack (snapCapture s.base)).2
  have hgetLast : s.commitSelection.undoStack.getLast? =
      some (snapCapture s.base) := by
    rw [hstack]; exact (evict_getLast s.undoStack (snapCapture s.base)).1
  have hpix : ∀ x y, x < s.base.width → y < s.base.height →
      (drawImageOn s.base
        (drawImageOn (drawImageOn (blankImage s.base.width s.base.height) s.base)
          s.editLayer)).pix x y = (drawImageOn s.base s.editLayer).pix x y := by
    intro x y hx hy
    have hxe : x < s.editLayer.width := by rw [hew]; exact hx
    have hye : y < s.editLayer.height := by rw [heh]; exact hy
    have hopq := hsolid x y hx hy
    simp only [drawImageOn, blankImage]
    rw [if_pos ⟨hx, hy⟩, if_pos ⟨hxe, hye⟩, if_pos ⟨hx, hy⟩, if_pos ⟨hxe, hye⟩]
    rw [blendOver_opaque_src _ _ hopq]
    rw [blendOver_opaque_src _ _ (blendOver_onto_solid _ _ hopq.2.2.2)]
  have hccur : s.commitSelection.currentSnapshot =
      some (snapCapture s.commitSelection.base) := by
    simp only [Renderer.commitSelection, snapshot_currentSnapshot,
      snapshot_base, setEditImage_base]
  refine ⟨hsel, ?_, ?_, ?_, ?_⟩
  · rw [hB]
    exact ⟨rfl, rfl, hpix⟩
  · exact List.ne_nil_of_length_pos hlenpos
  · simp [Renderer.canUndo, hsel, hlenpos]
  · obtain ⟨cur2, hc2⟩ := Option.isSome_iff_exists.mp (by rw [hccur]; rfl :
      s.commitSelection.currentSnapshot.isSome = true)
    simp only [Renderer.undo, hccur, hgetLast, if_true]
    have hw2 : (clearLayer s.commitSelection.base).width = s.base.width := by
      rw [hB]; rfl
    have hh2 : (clearLayer s.commitSelection.base).height = s.base.height := by
      rw [hB]; rfl
    exact putImageData_snapCapture_sameRaster _ _ hw2 hh2

/-- C4 counterexample state: a renderer whose base layer holds a
semi-transparent pixel and which has never taken a snapshot. -/
def c4State : Renderer := { initRenderer 1 1 with
  base := ⟨1, 1, fun _ _ => ⟨10, 20, 30, 128⟩⟩
  editLayer := blankImage 1 1
  selectionOverlay := some ⟨0, 0, 1, 1⟩
  hasSelection := true
  width := 1
  height := 1 }

/-- Counterexample to C4 as stated: on `c4State`, `commitSelection()`
leaves the undo stack empty (no new undo point is reachable, `canUndo`
is false, the subsequent `undo()` is a no-op and does not restore the
pre-commit alpha 128), and the temp-canvas double blend gives the pixel
alpha 192 rather than the single edit-over-base composite's 128. -/
theorem commitSelection_counterexample :
    c4State.commitSelection.undoStack.length = 0 ∧
    c4State.commitSelection.canUndo = false ∧
    ((c4State.commitSelection.undo true).base.pix 0 0).a = 192 ∧
    (c4State.base.pix 0 0).a = 128 ∧
    ((drawImageOn c4State.base c4State.editLayer).pix 0 0).a = 128 :=
  ⟨by decide, by decide, by with_unfolding_all decide,
   by decide, by with_unfolding_all decide⟩

/-- C4 witness state: opaque base, in-sync current snapshot. -/
def c4WitState : Renderer := { initRenderer 1 1 with
  base := ⟨1, 1, fun _ _ => ⟨10, 20, 30, 255⟩⟩
  editLayer := ⟨1, 1, fun _ _ => ⟨200, 0, 0, 255⟩⟩
  currentSnapshot := some (snapCapture ⟨1, 1, fun _ _ => ⟨10, 20, 30, 255⟩⟩)
  selectionOverlay := some ⟨0, 0, 1, 1⟩
  hasSelection := true
  width := 1
  height := 1 }

theorem commitSelection_spec_witness :
    c4WitState.commitSelection.hasSelection = false ∧
    c4WitState.commitSelection.base.sameRaster
      (drawImageOn c4WitState.base c4WitState.editLayer) ∧
    c4WitState.commitSelection.undoStack ≠ [] ∧
    c4WitState.commitSelection.canUndo = true ∧
    (c4WitState.commitSelection.undo true).base.sameRaster c4WitState.base :=
  commitSelection_spec c4WitState rfl
    (fun _ _ _ _ => ⟨show (10 : ℕ) ≤ 255 by decide, show (20 : ℕ) ≤ 255 by decide,
      show (30 : ℕ) ≤ 255 by decide, show (255 : ℕ) = 255 from rfl⟩) rfl rfl

/-! ### C6: smudgeLine -/

theorem putImageData_pix (img w : ImageData) (dx dy : ℤ) (X Y : ℕ) :
    (putImageData img w dx dy).pix X Y =
      if dx ≤ (X : ℤ) ∧ (X : ℤ) < dx + w.width ∧
          dy ≤ (Y : ℤ) ∧ (Y : ℤ) < dy + w.height then
        getPixel w ((X : ℤ) - dx) ((Y : ℤ) - dy)
      else img.pix X Y := rfl

theorem getImageData_pix (img : ImageData) (ox oy : ℤ) (w h x y : ℕ) :
    (getImageData img ox oy w h).pix x y =
      if x < w ∧ y < h then getPixel img (ox + x) (oy + y) else transparent := rfl

theorem getPixel_in (img : ImageData) (x y : ℤ) (h0 : 0 ≤ x)
    (h1 : x < img.width) (h2 : 0 ≤ y) (h3 : y < img.height) :
    getPixel img x y = img.pix x.toNat y.toNat := by
  unfold getPixel
  rw [if_pos ⟨h0, h1, h2, h3⟩]

theorem getPixel_eq_pix (img : ImageData) (X Y : ℕ) (hX : X < img.width)
    (hY : Y < img.height) : getPixel img X Y = img.pix X Y := by
  rw [getPixel_in img X Y (by positivity) (by exact_mod_cast hX) (by positivity)
    (by exact_mod_cast hY)]
  simp

/-- The mean over the brush disk of one channel of the brushSize×brushSize
window read at `(ox, oy)` (the claim's "mean R, G, B over the pixels
within radius brushSize/2 of the window center"). -/
def smudgeMean (img : ImageData) (ox oy : ℤ) (brushSize : ℕ)
    (ch : Pixel → ℕ) : ℚ :=
  (∑ p in brushDisk brushSize,
    (ch ((getImageData img ox oy brushSize brushSize).pix p.1 p.2) : ℚ)) /
    ((brushDisk brushSize).card : ℚ)

theorem smudgeStep_pix_cover (img : ImageData) (ox oy : ℤ) (b : ℕ) (op : ℚ)
    (X Y x y : ℕ) (hX : X < img.width) (hY : Y < img.height)
    (hx : (X : ℤ) = ox + x) (hy : (Y : ℤ) = oy + y)
    (hxb : x < b) (hyb : y < b) :
    (smudgeStep img ox oy b op).pix X Y =
      if inBrush b x y then
        ⟨clamp8 (smudgeMean img ox oy b Pixel.r * op +
           ((img.pix X Y).r : ℚ) * (1 - op)),
         clamp8 (smudgeMean img ox oy b Pixel.g * op +
           ((img.pix X Y).g : ℚ) * (1 - op)),
         clamp8 (smudgeMean img ox oy b Pixel.b * op +
           ((img.pix X Y).b : ℚ) * (1 - op)),
         (img.pix X Y).a⟩
      else img.pix X Y := by
  have e1 : ((X : ℤ) - ox).toNat = x := by omega
  have e2 : ((Y : ℤ) - oy).toNat = y := by omega
  show (putImageData img _ ox oy).pix X Y = _
  rw [putImageData_pix]
  rw [if_pos (show ox ≤ (X : ℤ) ∧ (X : ℤ) < ox + (b : ℤ) ∧
    oy ≤ (Y : ℤ) ∧ (Y : ℤ) < oy + (b : ℤ) by omega)]
  rw [getPixel_in _ _ _ (by omega) (show ((X : ℤ) - ox) < (b : ℤ) by omega)
    (by omega) (show ((Y : ℤ) - oy) < (b : ℤ) by omega)]
  rw [e1, e2]
  have hproj : ∀ f : ℕ → ℕ → Pixel, (⟨b, b, f⟩ : ImageData).pix = f :=
    fun _ => rfl
  rw [hproj]
  have hwin : (getImageData img ox oy b b).pix x y = img.pix X Y := by
    rw [getImageData_pix, if_pos (⟨hxb, hyb⟩ : x < b ∧ y < b), ← hx, ← hy,
      getPixel_eq_pix img X Y hX hY]
  simp only [hwin]
  by_cases hib : inBrush b x y
  · rw [if_pos hib, if_pos hib]
    rfl
  · rw [if_neg hib, if_neg hib]

theorem smudgeStep_pix_out (img : ImageData) (ox oy : ℤ) (b : ℕ) (op : ℚ)
    (X Y : ℕ) (hX : X < img.width) (hY : Y < img.height)
    (h : ¬ (ox ≤ (X : ℤ) ∧ (X : ℤ) < ox + (b : ℤ) ∧
        oy ≤ (Y : ℤ) ∧ (Y : ℤ) < oy + (b : ℤ) ∧
        inBrush b ((X : ℤ) - ox).toNat ((Y : ℤ) - oy).toNat)) :
    (smudgeStep img ox oy b op).pix X Y = img.pix X Y := by
  by_cases hcov : ox ≤ (X : ℤ) ∧ (X : ℤ) < ox + (b : ℤ) ∧
      oy ≤ (Y : ℤ) ∧ (Y : ℤ) < oy + (b : ℤ)
  · have hnb : ¬ inBrush b ((X : ℤ) - ox).toNat ((Y : ℤ) - oy).toNat :=
      fun hb => h ⟨hcov.1, hcov.2.1, hcov.2.2.1, hcov.2.2.2, hb⟩
    rw [smudgeStep_pix_cover img ox oy b op X Y ((X : ℤ) - ox).toNat
      ((Y : ℤ) - oy).toNat hX hY (by omega) (by omega) (by omega) (by omega)]
    rw [if_neg hnb]
  · show (putImageData img _ ox oy).pix X Y = _
    rw [putImageData_pix, if_neg hcov]

theorem smudgeStep_alpha (img : ImageData) (ox oy : ℤ) (b : ℕ) (op : ℚ)
    (X Y : ℕ) (hX : X < img.width) (hY : Y < img.height) :
    ((smudgeStep img ox oy b op).pix X Y).a = (img.pix X Y).a := by
  by_cases hcov : ox ≤ (X : ℤ) ∧ (X : ℤ) < ox + (b : ℤ) ∧
      oy ≤ (Y : ℤ) ∧ (Y : ℤ) < oy + (b : ℤ)
  · rw [smudgeStep_pix_cover img ox oy b op X Y ((X : ℤ) - ox).toNat
      ((Y : ℤ) - oy).toNat hX hY (by omega) (by omega) (by omega) (by omega)]
    split <;> rfl
  · rw [smudgeStep_pix_out img ox oy b op X Y hX hY
      (fun hc => hcov ⟨hc.1, hc.2.1, hc.2.2.1, hc.2.2.2.1⟩)]

/-- The property asserted by claim C6 about `smudgeLine`: the line is
walked in 1-unit steps with one `smudgeStep` per step applied to the edit
layer (and nothing else changed), and each step leaves alpha untouched
everywhere, leaves pixels outside its brush circle unchanged, and
rewrites each in-circle pixel's R/G/B as
`average*brushOpacity + original*(1-brushOpacity)` where the averages
are the means over the brush disk of the window read at that step. -/
def SmudgeSpec (s : Renderer) (x1 y1 x2 y2 : ℝ) (brushSize : ℕ)
    (brushOpacity : ℚ) : Prop :=
  let length := Real.sqrt ((x2 - x1) * (x2 - x1) + (y2 - y1) * (y2 - y1))
  let ux := (x2 - x1) / length
  let uy := (y2 - y1) / length
  let walk := (List.range ⌈length⌉₊).foldl (fun img i =>
      smudgeStep img (jsTruncR (x1 + i * ux - brushSize / 2))
        (jsTruncR (y1 + i * uy - brushSize / 2)) brushSize brushOpacity)
    s.editLayer
  (s.smudgeLine x1 y1 x2 y2 brushSize brushOpacity =
    { s with editLayer := walk }) ∧
  ∀ (img : ImageData) (ox oy : ℤ) (X Y : ℕ), X < img.width → Y < img.height →
    (((smudgeStep img ox oy brushSize brushOpacity).pix X Y).a =
      (img.pix X Y).a ∧
    (¬ (ox ≤ (X : ℤ) ∧ (X : ℤ) < ox + (brushSize : ℤ) ∧
        oy ≤ (Y : ℤ) ∧ (Y : ℤ) < oy + (brushSize : ℤ) ∧
        inBrush brushSize ((X : ℤ) - ox).toNat ((Y : ℤ) - oy).toNat) →
      (smudgeStep img ox oy brushSize brushOpacity).pix X Y = img.pix X Y) ∧
    (∀ x y : ℕ, (X : ℤ) = ox + x → (Y : ℤ) = oy + y →
      x < brushSize → y < brushSize → inBrush brushSize x y →
      (smudgeStep img ox oy brushSize brushOpacity).pix X Y =
        ⟨clamp8 (smudgeMean img ox oy brushSize Pixel.r * brushOpacity +
           ((img.pix X Y).r : ℚ) * (1 - brushOpacity)),
         clamp8 (smudgeMean img ox oy brushSize Pixel.g * brushOpacity +
           ((img.pix X Y).g : ℚ) * (1 - brushOpacity)),
         clamp8 (smudgeMean img ox oy brushSize Pixel.b * brushOpacity +
           ((img.pix X Y).b : ℚ) * (1 - brushOpacity)),
         (img.pix X Y).a⟩))

/-- C6: for every line, positive brush size and opacity in [0,1],
`smudgeLine` walks the line in 1-unit steps, at each step averages the
R/G/B of the window pixels within radius brushSize/2 of the window
center, rewrites each such pixel's R/G/B as
`average*brushOpacity + original*(1-brushOpacity)`, leaves every alpha
unchanged and leaves pixels outside the brush circle unchanged. -/
theorem smudgeLine_spec (s : Renderer) (x1 y1 x2 y2 : ℝ) (brushSize : ℕ)
    (brushOpacity : ℚ) (hb : 0 < brushSize) (hop0 : 0 ≤ brushOpacity)
    (hop1 : brushOpacity ≤ 1) :
    SmudgeSpec s x1 y1 x2 y2 brushSize brushOpacity := by
  unfold SmudgeSpec
  refine ⟨rfl, ?_⟩
  intro img ox oy X Y hX hY
  refine ⟨smudgeStep_alpha img ox oy brushSize brushOpacity X Y hX hY,
    fun h => smudgeStep_pix_out img ox oy brushSize brushOpacity X Y hX hY h,
    ?_⟩
  intro x y hx hy hxb hyb hib
  rw [smudgeStep_pix_cover img ox oy brushSize brushOpacity X Y x y hX hY
    hx hy hxb hyb]
  rw [if_pos hib]

/-- Concrete state for the C6 witness. -/
def c6State : Renderer := { initRenderer 4 4 with
  editLayer := ⟨2, 2, fun _ _ => ⟨100, 150, 200, 255⟩⟩ }

theorem smudgeLine_spec_witness :
    0 < 2 ∧ (0 : ℚ) ≤ 1/2 ∧ (1/2 : ℚ) ≤ 1 ∧
    SmudgeSpec c6State 0 0 1 0 2 (1/2) :=
  ⟨by decide, by norm_num, by norm_num,
    smudgeLine_spec c6State 0 0 1 0 2 (1/2) (by decide) (by norm_num)
      (by norm_num)⟩
